import Mathlib

/-!
Verification of the gadget client (sysdream/gadget-client).

This file gives a shallow embedding, in Lean 4, of the core logic of the
gadget client library:

* `src/gadget/proto.py` — the wire protocol (`Protocol._call`: JSON request
  encoding, 4-byte big-endian length framing, reply reception loop, response
  decoding) and the `Service` facade (`get_field`, `to_object`).
* `src/gadget/mapping.py` — the type-mapping registry (`Registry.register`,
  `Registry.resolve`), the remote-object attribute machinery
  (`Object.__getattr__`, `Object._getfields`, `Object._getfield`,
  `Object._getmethods`, `Object._getmethod`) and method dispatch
  (`Method.__call__`).
* `src/gadget/types.py` — the `Null` proxy.

Python values that matter to the claims (JSON payloads, the dynamic
`_method` field, host values fed to `to_object`) are embedded as explicit
inductive types; Python dictionaries are embedded as association lists with
first-match lookup and cons-on-write update, which reproduces the
overwrite/lookup semantics of a dict; remote calls are made observable by
returning explicit call logs or counters next to the result where a claim
counts round trips.
-/

namespace Gadget

/-! ## JSON values and Python 2 `json.dumps`

`Protocol._call` serializes the request with `json.dumps`, whose defaults
(`ensure_ascii=True`, separators `(', ', ': ')`) put a space after every
comma.  `PyJson` covers the value shapes a request can carry. -/

inductive PyJson : Type where
  | str (s : String)
  | int (n : Int)
  | bool (b : Bool)
  | null
  | arr (xs : List PyJson)

/-- One hexadecimal digit, lower case, as emitted by the json encoder. -/
def hexDigit (n : Nat) : Char :=
  if n < 10 then Char.ofNat (48 + n) else Char.ofNat (87 + n)

/-- Four hexadecimal digits, as in a json `\uXXXX` escape. -/
def hex4 (n : Nat) : String :=
  String.mk [hexDigit (n / 4096 % 16), hexDigit (n / 256 % 16),
             hexDigit (n / 16 % 16), hexDigit (n % 16)]

/-- Escaping of one character of a JSON string, following the Python json
encoder with `ensure_ascii=True`: the two-character escapes, `\uXXXX` for
other control characters and for every non-ASCII character (surrogate pairs
above the BMP), plain ASCII passed through. -/
def escapeChar (c : Char) : String :=
  if c = Char.ofNat 34 then "\\\""
  else if c = Char.ofNat 92 then "\\\\"
  else if c = Char.ofNat 10 then "\\n"
  else if c = Char.ofNat 13 then "\\r"
  else if c = Char.ofNat 9 then "\\t"
  else if c.toNat = 8 then "\\b"
  else if c.toNat = 12 then "\\f"
  else if c.toNat < 32 then "\\u" ++ hex4 c.toNat
  else if c.toNat < 127 then String.mk [c]
  else if c.toNat < 65536 then "\\u" ++ hex4 c.toNat
  else "\\u" ++ hex4 (55296 + (c.toNat - 65536) / 1024)
       ++ "\\u" ++ hex4 (56320 + (c.toNat - 65536) % 1024)

/-- JSON encoding of a string body. -/
def escapeString (s : String) : String :=
  String.join (s.data.map escapeChar)

mutual

/-- Embedding of Python 2 `json.dumps` with its default arguments, as used
in `Protocol._call` (`src/gadget/proto.py` line 69).  The default item
separator is `', '` — a comma followed by a space. -/
def dumps : PyJson → String
  | .str s => "\"" ++ escapeString s ++ "\""
  | .int n => toString n
  | .bool true => "true"
  | .bool false => "false"
  | .null => "null"
  | .arr xs => "[" ++ dumpsList xs ++ "]"

/-- Items of a JSON array joined by the default separator `', '`. -/
def dumpsList : List PyJson → String
  | [] => ""
  | [x] => dumps x
  | x :: y :: rest => dumps x ++ ", " ++ dumpsList (y :: rest)

end

/-! ## Length framing (`struct.pack('>I', n)` / `struct.unpack('>I', b)`) -/

/-- Big-endian 4-byte encoding of an unsigned 32-bit integer, as produced
by `struct.pack` with format `>I`. -/
def u32beEncode (n : Nat) : List Nat :=
  [n / 16777216 % 256, n / 65536 % 256, n / 256 % 256, n % 256]

/-- Big-endian 4-byte decoding, as `struct.unpack` with format `>I`. -/
def u32beDecode (bs : List Nat) : Nat :=
  match bs with
  | [a, b, c, d] => a * 16777216 + b * 65536 + c * 256 + d
  | _ => 0

/-- Bytes of an ASCII Python 2 string (the json encoder with
`ensure_ascii=True` only ever produces ASCII output, so one character is
one byte and `len(request)` counts bytes). -/
def strBytes (s : String) : List Nat :=
  s.data.map Char.toNat

/-- The exact byte sequence `Protocol._call` passes to `socket.send`
(`src/gadget/proto.py` lines 69-71): the json text of the array
`[app, name] + arguments`, preceded by its 4-byte big-endian length. -/
def callMessage (app name : String) (arguments : List PyJson) : List Nat :=
  let request := dumps (.arr ([.str app, .str name] ++ arguments))
  u32beEncode request.length ++ strBytes request

/-! ## Reply reception (`Protocol._call`, `src/gadget/proto.py` lines 72-84)

The socket is modelled as the list of byte chunks the peer's TCP stack will
deliver: each `socket.recv(k)` returns up to `k` bytes taken from the first
pending chunk, and returns the empty string once no chunk is pending (peer
closed).  A real socket never delivers an empty chunk, so theorems assume
the pending chunks are nonempty. -/

/-- One `socket.recv(k)`: the bytes returned and the remaining stream. -/
def recvBytes (chunks : List (List Nat)) (k : Nat) : List Nat × List (List Nat) :=
  match chunks with
  | [] => ([], [])
  | c :: rest =>
    if c.length ≤ k then (c, rest)
    else (c.take k, c.drop k :: rest)

/-- The accumulation loop of `Protocol._call` (lines 77-82):
`while len(result) < length: recv = socket.recv(length - len(result));
if len(recv) == 0: break; result += recv`. -/
def recvLoop (length : Nat) (acc : List Nat) (chunks : List (List Nat)) :
    List Nat × List (List Nat) :=
  if h1 : acc.length < length then
    match h : recvBytes chunks (length - acc.length) with
    | (r, rest) =>
      if h2 : r.length = 0 then (acc, rest)
      else recvLoop length (acc ++ r) rest
  else (acc, chunks)
termination_by (length - acc.length) + chunks.length
decreasing_by
  simp only [List.length_append]
  rcases chunks with _ | ⟨c, cs⟩
  · simp only [recvBytes, Prod.mk.injEq] at h
    rw [← h.1] at h2
    simp at h2
  · simp only [recvBytes] at h
    by_cases hck : c.length ≤ length - acc.length
    · rw [if_pos hck] at h
      injection h with hr hrest
      subst hr; subst hrest
      simp only [List.length_cons]
      omega
    · rw [if_neg hck] at h
      injection h with hr hrest
      subst hr; subst hrest
      simp only [List.length_take, List.length_cons]
      omega

/-- Errors of one `_call` round trip.  The two `assert` statements of
`Protocol._call` (lines 74 and 84) both abort the call; `shortHeader` is
the first (`"Connection error while receiving"`), `shortPayload` the
second (`"Wrong message length"`). -/
inductive ProtoError : Type where
  | shortHeader
  | shortPayload
deriving Repr, DecidableEq

/-- The reply-reception phase of `Protocol._call` (lines 72-84): one
`recv(4)` for the length prefix, asserted to be exactly 4 bytes; then the
accumulation loop for the payload, asserted to be exactly `length` bytes. -/
def recvReply (chunks : List (List Nat)) : Except ProtoError (List Nat) :=
  let p := recvBytes chunks 4
  if p.1.length = 4 then
    let length := u32beDecode p.1
    let q := recvLoop length [] p.2
    if q.1.length = length then .ok q.1 else .error .shortPayload
  else .error .shortHeader

/-! ## Response decoding (`Protocol._call`, lines 86-89)

`json.loads(result)` yields a Python dict; the claims start from the
decoded response object, embedded as an association list.  The code then
runs
`if not response['success']: raise RuntimeError("Remote error, %s" % response['response'])`
`return None if 'response' not in response else response['response']`.
A missing key in a Python dict subscript raises `KeyError`. -/

/-- Outcome of the decode stage of `_call`. -/
inductive CallOutcome : Type where
  /-- `RuntimeError("Remote error, %s" % msg)` with the formatted message. -/
  | remoteError (msg : String)
  /-- `KeyError` from subscripting a missing key. -/
  | keyError (key : String)
  /-- Normal return value (`none` embeds Python `None`). -/
  | ok (value : Option PyJson)

/-- Python dict lookup on a cons-on-write association-list embedding: a
lookup finds the binding written last, exactly the overwrite semantics of
a dict (see `alSet`). -/
def alGet {K : Type} (m : List (String × K)) (key : String) : Option K :=
  match m with
  | [] => none
  | (k, v) :: rest => if k = key then some v else alGet rest key

/-- Python dict update `d[key] = v` on the association-list embedding. -/
def alSet {K : Type} (m : List (String × K)) (key : String) (v : K) :
    List (String × K) :=
  (key, v) :: m

/-- Python truthiness of a decoded JSON value, as tested by
`if not response['success']`. -/
def pyTruthy : PyJson → Bool
  | .str s => !s.isEmpty
  | .int n => n != 0
  | .bool b => b
  | .null => false
  | .arr [] => false
  | .arr (_ :: _) => true

/-- Python `str()` of a decoded JSON value, as interpolated by
`"Remote error, %s" % msg` (the claims only exercise the string case). -/
def pyStr : PyJson → String
  | .str s => s
  | .int n => toString n
  | .bool true => "True"
  | .bool false => "False"
  | .null => "None"
  | .arr _ => "[...]"

/-- The decode stage of `Protocol._call` (lines 86-89) applied to the
decoded response object. -/
def handleResponse (response : List (String × PyJson)) : CallOutcome :=
  match alGet response "success" with
  | none => .keyError "success"
  | some success =>
    if pyTruthy success then
      match alGet response "response" with
      | none => .ok none
      | some v => .ok (some v)
    else
      match alGet response "response" with
      | none => .keyError "response"
      | some msg => .remoteError ("Remote error, " ++ pyStr msg)

/-- Whether an outcome is the remote-error failure. -/
def CallOutcome.isRemoteError : CallOutcome → Bool
  | .remoteError _ => true
  | _ => false

/-! ## Type-mapping registry (`src/gadget/mapping.py` lines 53-92)

`Registry.mappings` is a Python dict from Java class name to Python proxy
class.  The dict is embedded as an association list updated by consing, so
a lookup finds the binding written last — exactly the overwrite semantics
of `cls.mappings[classname] = clazz`.  The proxy classes themselves are
opaque to the registry, hence the type parameter `K`. -/

/-- `Registry.register` (`src/gadget/mapping.py` lines 64-72):
`cls.mappings[classname] = clazz`. -/
def regRegister {K : Type} (m : List (String × K)) (clazz : K)
    (classname : String) : List (String × K) :=
  alSet m classname clazz

/-- `ValueError("No available mapping")` raised by `Registry.resolve`. -/
inductive MapError : Type where
  | noMapping
deriving Repr, DecidableEq

/-- `Registry.resolve` (`src/gadget/mapping.py` lines 74-92): scan the
candidate class names in order, return the first mapped one, raise
`ValueError` when none is mapped. -/
def regResolve {K : Type} (m : List (String × K)) :
    List String → Except MapError K
  | [] => .error .noMapping
  | classname :: rest =>
    match alGet m classname with
    | some clazz => .ok clazz
    | none => regResolve m rest

/-! ## The dynamic `_method` field and `Method.__call__` dispatch
(`src/gadget/mapping.py` lines 347-404)

`Method._method` holds either a method name (a Python `str`) or a method
index (a Python `int`).  The dispatch condition at line 389 is written
`if type(self._method is str):` — it applies `type` to the *result of the
identity test*, so the condition's value is the `bool` class object, which
is truthy no matter what `_method` is.  The mini-model below embeds enough
of Python's dynamic semantics (`is` on values vs type objects, `type`,
truthiness of a class object) to express that line exactly as written. -/

/-- The Python types in play at the dispatch site. -/
inductive PyType : Type where
  | strT
  | intT
  | boolT
  | typeT
deriving Repr, DecidableEq

/-- Python values in play at the dispatch site: the stored `_method`
(string name or integer index) and the objects produced while the
condition is evaluated. -/
inductive PyVal : Type where
  | str (s : String)
  | int (n : Int)
  | bool (b : Bool)
  | type (t : PyType)
deriving Repr, DecidableEq

/-- Python `type(v)`. -/
def pyTypeOf : PyVal → PyType
  | .str _ => .strT
  | .int _ => .intT
  | .bool _ => .boolT
  | .type _ => .typeT

/-- Python `a is b` restricted to the values in play: a `str` or `int`
value is never identical to a type object; two type objects are identical
exactly when they are the same type. -/
def pyIs : PyVal → PyVal → Bool
  | .type a, .type b => a == b
  | _, _ => false

/-- Python truthiness of the values in play; a class object is truthy. -/
def pyValTruthy : PyVal → Bool
  | .str s => !s.isEmpty
  | .int n => n != 0
  | .bool b => b
  | .type _ => true

/-- The dispatch condition of `Method.__call__` exactly as written at
`src/gadget/mapping.py` line 389: `type(self._method is str)` under an
`if`. -/
def callBranch (method : PyVal) : Bool :=
  pyValTruthy (.type (pyTypeOf (.bool (pyIs method (.type .strT)))))

/-- Which service routine `Method.__call__` invokes: `virtualCall` stands
for `self._service.virtual(...)` (remote `invokeMethodByName`),
`concreteCall` for `self._service.invoke(...)`. -/
inductive Invocation : Type where
  | virtualCall (entryPoint : Int) (path : List Nat) (method : PyVal)
      (args : List (Option Int))
  | concreteCall (entryPoint : Int) (path : List Nat) (method : PyVal)
      (args : List (Option Int))
deriving Repr, DecidableEq

/-- The dispatch of `Method.__call__` (`src/gadget/mapping.py` lines
388-394) applied to the already-marshalled argument entry points. -/
def methodInvoke (entryPoint : Int) (path : List Nat) (method : PyVal)
    (args : List (Option Int)) : Invocation :=
  if callBranch method then .virtualCall entryPoint path method args
  else .concreteCall entryPoint path method args

/-- The argument marshalling of `Method.__call__` at
`src/gadget/mapping.py` line 387:
`[arg._getentrypoint() if arg is not None else None for arg in objects]`.
`objects` holds `None` for each null/unconvertible argument; `getEp`
abstracts `_getentrypoint` on the others. -/
def marshalArgs {α : Type} (getEp : α → Int) (objects : List (Option α)) :
    List (Option Int) :=
  objects.map fun o =>
    match o with
    | none => none
    | some a => some (getEp a)

/-! ## Remote oracle and service facade (`src/gadget/proto.py` 121-318)

The remote agent is modelled as a deterministic oracle.  `Service`'s
field/method listings parse `"name:modifier* type"` strings; the oracle
delivers the already-split components `(name, modifiers, type)`, and the
dict population loops of `Service.get_fields` / `Service.get_methods` are
embedded over those components.  Every remote round trip an operation
performs is recorded in an explicit call log. -/

/-- A remote call issued through `Protocol`. -/
inductive RemoteCall : Type where
  | getFieldsCall (entryPoint : Int) (path : List Nat)
  | getMethodsCall (entryPoint : Int) (path : List Nat)
  | getTypesCall (entryPoint : Int) (path : List Nat)
  | pushStringCall (s : String)
  | pushIntCall (n : Int)
  | pushBoolCall (b : Bool)
deriving Repr, DecidableEq

/-- Deterministic model of the remote agent's answers. -/
structure Remote : Type where
  /-- Parsed entries of `protocol.getFields`: `(name, modifiers, type)`. -/
  fieldsOf : Int → List Nat → List (String × List String × String)
  /-- Parsed entries of `protocol.getMethods`: `(name, modifiers, type)`. -/
  methodsOf : Int → List Nat → List (String × List String × String)
  /-- `protocol.getTypes`: specificity-ordered type names of an object. -/
  typesOf : Int → List Nat → List String
  /-- `protocol.pushString`: entry point of a pushed string. -/
  pushString : String → Int
  /-- `protocol.pushInt`: entry point of a pushed integer. -/
  pushInt : Int → Int
  /-- `protocol.pushBool`: entry point of a pushed boolean. -/
  pushBool : Bool → Int

/-- A constructed remote proxy (`Object.__init__`,
`src/gadget/mapping.py` lines 146-164): the remote types, the entry point
and the path it was built from.  Its own caches start empty and belong to
its own state, which the claims about the parent object do not touch. -/
structure RObj : Type where
  types : List String
  entryPoint : Int
  path : List Nat
deriving Repr, DecidableEq

/-- A cached field value: `Service.get_fields` first stores the bare
integer index; `Object._getfield` later overwrites it with the object
built by `Service.get_field` (which is Python `None` when that call
returns no object). -/
inductive FieldVal : Type where
  | index (i : Nat)
  | materialized (obj : Option RObj)
deriving Repr, DecidableEq

/-- One field-cache entry: `(modifiers, type, field)` as populated by
`Service.get_fields` at `src/gadget/proto.py` line 182. -/
abbrev FieldEntry : Type := List String × String × FieldVal

/-- One method-cache entry for a name: the list of
`(modifiers, type, index)` concrete overloads, as populated by
`Service.get_methods` at `src/gadget/proto.py` lines 250-255 (the stored
`Method` object holds the integer `index`). -/
abbrev MethodOverloads : Type := List (List String × String × Nat)

/-- `Service.get_fields` (`src/gadget/proto.py` lines 162-183): one
`getFields` round trip, then `result[name] = (modifiers, type_, index)`
over the enumerated entries. -/
def serviceGetFields (r : Remote) (entryPoint : Int) (path : List Nat) :
    List (String × FieldEntry) :=
  (List.enum (r.fieldsOf entryPoint path)).foldl
    (fun d e => alSet d e.2.1 (e.2.2.1, e.2.2.2, FieldVal.index e.1)) []

/-- `Service.get_methods` (`src/gadget/proto.py` lines 231-256): one
`getMethods` round trip, then append `(modifiers, type_, Method(index))`
to `result[name]` over the enumerated entries. -/
def serviceGetMethods (r : Remote) (entryPoint : Int) (path : List Nat) :
    List (String × MethodOverloads) :=
  (List.enum (r.methodsOf entryPoint path)).foldl
    (fun d e =>
      alSet d e.2.1 (((alGet d e.2.1).getD []) ++ [(e.2.2.1, e.2.2.2, e.1)]))
    []

/-- `Service.get_field` (`src/gadget/proto.py` lines 185-201): a negative
entry point yields Python `None` with no remote call; otherwise one
`getTypes` round trip, `None` when the type list is empty, and otherwise
the proxy built by the resolved mapping class (its base-class constructor
performs no further round trip). -/
def serviceGetField (r : Remote) (entryPoint : Int) (path : List Nat) :
    Option RObj × List RemoteCall :=
  if entryPoint < 0 then (none, [])
  else
    let types := r.typesOf entryPoint path
    if types = [] then (none, [.getTypesCall entryPoint path])
    else (some ⟨types, entryPoint, path⟩, [.getTypesCall entryPoint path])

/-! ## Per-object caches (`src/gadget/mapping.py` lines 146-324)

`Object.__init__` sets `_field_cache = None` and `_method_cache = None`;
the accessors below mutate them.  `_refresh` is the base-class no-op
(primitive wrapper subclasses override it; they are outside the cache
claims).  Calling `_refresh` on Python `None` — which happens when
`Service.get_field` returned `None` for a known field — raises; that
abnormal exit is the `crash` outcome. -/

/-- The mutable state of one `Object` instance. -/
structure ObjState : Type where
  entryPoint : Int
  path : List Nat
  fieldCache : Option (List (String × FieldEntry))
  methodCache : Option (List (String × MethodOverloads))
deriving Repr, DecidableEq

/-- A freshly constructed `Object` (`Object.__init__`): both caches
unset. -/
def freshObj (entryPoint : Int) (path : List Nat) : ObjState :=
  ⟨entryPoint, path, none, none⟩

/-- `Object._getfields` (`src/gadget/mapping.py` lines 256-264): fetch
the field dictionary on the first call, serve the cache afterwards. -/
def objGetfields (r : Remote) (s : ObjState) :
    List (String × FieldEntry) × ObjState × List RemoteCall :=
  match s.fieldCache with
  | none =>
    let d := serviceGetFields r s.entryPoint s.path
    (d, { s with fieldCache := some d },
     [.getFieldsCall s.entryPoint s.path])
  | some d => (d, s, [])

/-- Normal or abnormal result of `Object._getfield`: `ok none` is the
Python `None` returned when the name is not a field, `crash` is the
exception raised by `field._refresh()` when the cached field object is
Python `None`. -/
inductive GetfieldResult : Type where
  | ok (obj : Option RObj)
  | crash
deriving Repr, DecidableEq

/-- `Object._getfield` (`src/gadget/mapping.py` lines 267-287): look the
name up in the (fetched-once) field dictionary; materialize an
integer-index entry through `Service.get_field`, overwriting the cache
entry; then `field._refresh()` — a crash when the stored field is Python
`None`, a no-op otherwise. -/
def objGetfield (r : Remote) (s : ObjState) (name : String) :
    GetfieldResult × ObjState × List RemoteCall :=
  let f := objGetfields r s
  match alGet f.1 name with
  | none => (.ok none, f.2.1, f.2.2)
  | some (modifiers, type_, .index i) =>
    let g := serviceGetField r f.2.1.entryPoint (f.2.1.path ++ [i])
    let s2 := { f.2.1 with
      fieldCache := some (alSet f.1 name (modifiers, type_,
        FieldVal.materialized g.1)) }
    match g.1 with
    | some o => (.ok (some o), s2, f.2.2 ++ g.2)
    | none => (.crash, s2, f.2.2 ++ g.2)
  | some (_, _, .materialized (some o)) => (.ok (some o), f.2.1, f.2.2)
  | some (_, _, .materialized none) => (.crash, f.2.1, f.2.2)

/-- `Object._getmethods` (`src/gadget/mapping.py` lines 289-297): fetch
the method dictionary on the first call, serve the cache afterwards. -/
def objGetmethods (r : Remote) (s : ObjState) :
    List (String × MethodOverloads) × ObjState × List RemoteCall :=
  match s.methodCache with
  | none =>
    let d := serviceGetMethods r s.entryPoint s.path
    (d, { s with methodCache := some d },
     [.getMethodsCall s.entryPoint s.path])
  | some d => (d, s, [])

/-- A `Method` proxy (`src/gadget/mapping.py` lines 347-374): the
receiver's address and the dynamic `_method` field. -/
structure MethodObj : Type where
  entryPoint : Int
  path : List Nat
  method : PyVal
deriving Repr, DecidableEq

/-- `Object._getmethod` (`src/gadget/mapping.py` lines 300-311): when the
name is in the method dictionary, a virtual `Method` carrying the *name
string* is returned; otherwise Python `None`. -/
def objGetmethod (r : Remote) (s : ObjState) (name : String) :
    Option MethodObj × ObjState × List RemoteCall :=
  let m := objGetmethods r s
  match alGet m.1 name with
  | some _ => (some ⟨m.2.1.entryPoint, m.2.1.path, .str name⟩, m.2.1, m.2.2)
  | none => (none, m.2.1, m.2.2)

/-- Outcome of `Object.__getattr__`. -/
inductive AttrResult : Type where
  | fieldAttr (obj : RObj)
  | methodAttr (m : MethodObj)
  | attributeError (name : String)
  | crash
deriving Repr, DecidableEq

/-- `Object.__getattr__` (`src/gadget/mapping.py` lines 223-245): fields
first, then methods, then `AttributeError`. -/
def objGetattr (r : Remote) (s : ObjState) (name : String) :
    AttrResult × ObjState × List RemoteCall :=
  let f := objGetfield r s name
  match f.1 with
  | .crash => (.crash, f.2.1, f.2.2)
  | .ok (some o) => (.fieldAttr o, f.2.1, f.2.2)
  | .ok none =>
    let m := objGetmethod r f.2.1 name
    match m.1 with
    | some mo => (.methodAttr mo, m.2.1, f.2.2 ++ m.2.2)
    | none => (.attributeError name, m.2.1, f.2.2 ++ m.2.2)

/-! ## The `Null` proxy (`src/gadget/types.py` lines 37-55) -/

/-- `Null._getfields` returns Python `None` — not a dictionary. -/
def nullGetfields : Option (List (String × FieldEntry)) := none

/-- `Null._getmethods` returns Python `None` — not a dictionary. -/
def nullGetmethods : Option (List (String × MethodOverloads)) := none

/-! ## Host-value promotion (`Service.to_object`,
`src/gadget/proto.py` lines 303-318) -/

/-- Host values fed to `Service.to_object`, tagged by their exact Python
type (`type(var) is ...` checks; note `type(True) is int` is false in
Python, so a `bool` reaches the `pushBool` branch).  `floatV`, `listV`
and `noneV` stand for host values of any type other than `str`, `int`
and `bool`. -/
inductive HostVal : Type where
  | str (s : String)
  | int (n : Int)
  | bool (b : Bool)
  | floatV
  | listV
  | noneV
deriving Repr, DecidableEq

/-- Whether `Service.to_object` has a branch for the value's exact
type. -/
def isPromotable : HostVal → Bool
  | .str _ => true
  | .int _ => true
  | .bool _ => true
  | _ => false

/-- `Service.to_object` (`src/gadget/proto.py` lines 303-318): push a
`str` / `int` / `bool` and wrap the returned entry point through
`Service.get_field`; any other exact type falls through every branch and
the function returns Python `None` having issued no remote call. -/
def toObject (r : Remote) (v : HostVal) : Option RObj × List RemoteCall :=
  match v with
  | .str s =>
    let g := serviceGetField r (r.pushString s) []
    (g.1, .pushStringCall s :: g.2)
  | .int n =>
    let g := serviceGetField r (r.pushInt n) []
    (g.1, .pushIntCall n :: g.2)
  | .bool b =>
    let g := serviceGetField r (r.pushBool b) []
    (g.1, .pushBoolCall b :: g.2)
  | _ => (none, [])

/-- Readback of a materialized cache value, as `_getfield` returns it:
the stored object, or the crash of `None._refresh()`. -/
def readback : Option RObj → GetfieldResult
  | some x => .ok (some x)
  | none => .crash

/-- Readback of a whole cache entry, as a repeated `_getfield` returns
it. -/
def readbackEntry : Option FieldEntry → GetfieldResult
  | some (_, _, FieldVal.materialized o) => readback o
  | _ => .ok none

/-- Remote calls that are field-list fetches. -/
def isFetch : RemoteCall → Bool
  | .getFieldsCall _ _ => true
  | _ => false

/-- A fixed sample remote agent used by the concrete witnesses. -/
def sampleRemote : Remote where
  fieldsOf := fun _ _ => [("x", (["public"], "int")), ("y", (["private"], "int"))]
  methodsOf := fun _ _ => [("x", (["public"], "void")), ("m", ([], "void"))]
  typesOf := fun _ _ => ["java.lang.Object"]
  pushString := fun _ => 5
  pushInt := fun _ => 6
  pushBool := fun _ => 7

/-! ## Helper lemmas -/

theorem u32beEncode_length (n : Nat) : (u32beEncode n).length = 4 := rfl

theorem u32be_decode_encode (n : Nat) (h : n < 4294967296) :
    u32beDecode (u32beEncode n) = n := by
  simp only [u32beEncode, u32beDecode]
  omega

/-- What the accumulation loop yields: the prefix of the pending stream of
the requested size (or the whole stream when it is shorter), appended to
what was already accumulated — provided the peer only delivers nonempty
chunks. -/
theorem recvLoop_fst (length : Nat) :
    ∀ (chunks : List (List Nat)) (acc : List Nat),
      (∀ c ∈ chunks, c ≠ []) →
      (recvLoop length acc chunks).1 =
        acc ++ chunks.flatten.take (length - acc.length) := by
  intro chunks
  induction chunks with
  | nil =>
    intro acc _
    rw [recvLoop]
    by_cases h1 : acc.length < length
    · simp [h1, recvBytes]
    · simp [h1]
  | cons c cs ih =>
    intro acc hne
    have hc : c ≠ [] := hne c (by simp)
    have hcs : ∀ x ∈ cs, x ≠ [] := fun x hx => hne x (by simp [hx])
    rw [recvLoop]
    by_cases h1 : acc.length < length
    · rw [dif_pos h1]
      simp only [recvBytes]
      by_cases hck : c.length ≤ length - acc.length
      · rw [if_pos hck]
        have hr0 : ¬c.length = 0 := by
          intro h0; exact hc (List.eq_nil_of_length_eq_zero h0)
        rw [dif_neg hr0]
        rw [ih (acc ++ c) hcs]
        rw [List.flatten_cons, List.take_append_eq_append_take,
            List.take_of_length_le hck, List.append_assoc,
            List.length_append]
        congr 3
        omega
      · rw [if_neg hck]
        have hr0 : ¬(c.take (length - acc.length)).length = 0 := by
          rw [List.length_take]
          omega
        rw [dif_neg hr0]
        rw [recvLoop]
        have h2 : ¬(acc ++ c.take (length - acc.length)).length < length := by
          rw [List.length_append, List.length_take]
          omega
        rw [dif_neg h2]
        rw [List.flatten_cons, List.take_append_eq_append_take]
        have : length - acc.length - c.length = 0 := by omega
        rw [this, List.take_zero, List.append_nil]
    · rw [dif_neg h1]
      have : length - acc.length = 0 := by omega
      simp [this]

/-! ## C3 — framing of the reply -/

/-- C3: reading a reply takes the 4-byte length prefix, then accumulates
partial reads until exactly the declared number of payload bytes is
obtained; a length prefix shorter than 4 bytes, and any stream whose
payload bytes fall short of the declared length, are rejected with the
respective framing error. -/
theorem reply_framing (L : Nat) (header : List Nat)
    (chunks : List (List Nat)) (hne : ∀ c ∈ chunks, c ≠ [])
    (hL : L < 4294967296) :
    (header.length < 4 → recvReply (header :: chunks) = .error .shortHeader) ∧
    (chunks.flatten.length < L →
      recvReply (u32beEncode L :: chunks) = .error .shortPayload) ∧
    (L ≤ chunks.flatten.length →
      recvReply (u32beEncode L :: chunks) = .ok (chunks.flatten.take L)) := by
  refine ⟨?_, ?_, ?_⟩
  · intro hshort
    simp only [recvReply, recvBytes, if_pos (Nat.le_of_lt hshort)]
    rw [if_neg (by omega)]
  · intro hlt
    simp only [recvReply, recvBytes,
      if_pos (Nat.le_of_eq (u32beEncode_length L))]
    rw [if_pos (u32beEncode_length L), u32be_decode_encode L hL]
    have hfst := recvLoop_fst L chunks [] hne
    simp only [List.nil_append, List.length_nil, Nat.sub_zero] at hfst
    rw [hfst]
    rw [if_neg (by rw [List.length_take]; omega)]
  · intro hge
    simp only [recvReply, recvBytes,
      if_pos (Nat.le_of_eq (u32beEncode_length L))]
    rw [if_pos (u32beEncode_length L), u32be_decode_encode L hL]
    have hfst := recvLoop_fst L chunks [] hne
    simp only [List.nil_append, List.length_nil, Nat.sub_zero] at hfst
    rw [hfst]
    rw [if_pos (by rw [List.length_take]; omega)]

/-- Witness for C3 at concrete streams: a 1-byte length prefix is
rejected, a stream 2 payload bytes short of a declared length 5 is
rejected, and a declared length 3 against chunks `[1,2]`, `[3,4]` yields
exactly the first 3 payload bytes. -/
theorem reply_framing_witness :
    recvReply ([9] :: [[1, 2]]) = .error .shortHeader ∧
    recvReply (u32beEncode 5 :: [[1, 2]]) = .error .shortPayload ∧
    recvReply (u32beEncode 3 :: [[1, 2], [3, 4]]) = .ok [1, 2, 3] :=
  ⟨(reply_framing 5 [9] [[1, 2]] (by decide) (by decide)).1 (by decide),
   (reply_framing 5 [9] [[1, 2]] (by decide) (by decide)).2.1 (by decide),
   (reply_framing 3 [9] [[1, 2], [3, 4]] (by decide) (by decide)).2.2
     (by decide)⟩

/-! ## C1 — request encoding -/

/-- Counterexample for C1 as stated: the request `('app', 'getFields', 0,
[])` does *not* produce the payload `["app","getFields",0,[]]` preceded by
its length — `json.dumps` with its default separators puts a space after
every comma. -/
theorem call_message_compact_counterexample :
    callMessage "app" "getFields" [.int 0, .arr []] ≠
      u32beEncode 24 ++ strBytes "[\"app\",\"getFields\",0,[]]" := by
  decide

/-- C1 (amended): a call sends exactly `u32be(len(json)) + json`, where
`json` is the `json.dumps` text of `[app, name] + arguments` with the
default separators (a space after each comma); the 4-byte length prefix
decodes back to the payload length; in particular, the request `('app',
'getFields', 0, [])` produces exactly the 27-byte payload
`["app", "getFields", 0, []]` preceded by its big-endian length. -/
theorem call_message_layout (app name : String) (arguments : List PyJson) :
    callMessage app name arguments =
      u32beEncode (dumps (.arr ([.str app, .str name] ++ arguments))).length
        ++ strBytes (dumps (.arr ([.str app, .str name] ++ arguments))) ∧
    ((dumps (.arr ([.str app, .str name] ++ arguments))).length < 4294967296 →
      u32beDecode ((callMessage app name arguments).take 4) =
        (dumps (.arr ([.str app, .str name] ++ arguments))).length) ∧
    callMessage "app" "getFields" [.int 0, .arr []] =
      u32beEncode 27 ++ strBytes "[\"app\", \"getFields\", 0, []]" := by
  refine ⟨rfl, ?_, by decide⟩
  intro h
  show u32beDecode ((u32beEncode _ ++ _).take 4) = _
  rw [show (4 : Nat) = (u32beEncode
      (dumps (.arr ([.str app, .str name] ++ arguments))).length).length
    from rfl]
  rw [List.take_left]
  exact u32be_decode_encode _ h

/-- Witness for C1 at the concrete request of the claim. -/
theorem call_message_layout_witness :
    (dumps (.arr ([.str "app", .str "getFields"] ++
      [PyJson.int 0, .arr []]))).length < 4294967296 ∧
    u32beDecode ((callMessage "app" "getFields"
        [PyJson.int 0, .arr []]).take 4) =
      (dumps (.arr ([.str "app", .str "getFields"] ++
        [PyJson.int 0, .arr []]))).length :=
  ⟨by decide,
   (call_message_layout "app" "getFields" [.int 0, .arr []]).2.1 (by decide)⟩

/-! ## C2 — response decoding -/

/-- Counterexample for C2 as stated: on `{"success": false}` with no
`response` field, `_call` does not fail with a remote error carrying a
generic message — it raises `KeyError` from `response['response']`. -/
theorem response_missing_message_counterexample :
    handleResponse [("success", .bool false)] = .keyError "response" ∧
    (handleResponse [("success", .bool false)]).isRemoteError = false :=
  ⟨rfl, rfl⟩

/-- C2 (amended): for every decoded response object with a `success`
field: when `success` is falsy and `response` is present, the call fails
with the remote error carrying the `response` message; when `success` is
falsy and `response` is absent, it fails with a `KeyError` (not a remote
error); when `success` is truthy, the call returns the `response` value,
or the absence marker when the key is missing. -/
theorem response_decoding (resp : List (String × PyJson)) (success : PyJson)
    (hs : alGet resp "success" = some success) :
    (pyTruthy success = false →
      (∀ msg, alGet resp "response" = some msg →
        handleResponse resp = .remoteError ("Remote error, " ++ pyStr msg)) ∧
      (alGet resp "response" = none →
        handleResponse resp = .keyError "response")) ∧
    (pyTruthy success = true →
      (alGet resp "response" = none → handleResponse resp = .ok none) ∧
      (∀ v, alGet resp "response" = some v →
        handleResponse resp = .ok (some v))) := by
  constructor
  · intro hf
    constructor
    · intro msg hmsg
      simp [handleResponse, hs, hf, hmsg]
    · intro hnone
      simp [handleResponse, hs, hf, hnone]
  · intro ht
    constructor
    · intro hnone
      simp [handleResponse, hs, ht, hnone]
    · intro v hv
      simp [handleResponse, hs, ht, hv]

/-- Witness for C2 at the responses of the claim: `{"success": false,
"response": "boom"}` raises the remote error whose message carries
`boom`, and `{"success": true, "response": [1]}` returns the value. -/
theorem response_decoding_witness :
    handleResponse [("success", .bool false), ("response", .str "boom")] =
      .remoteError "Remote error, boom" ∧
    handleResponse [("success", .bool true), ("response", .str "ok")] =
      .ok (some (.str "ok")) :=
  ⟨((response_decoding
      [("success", .bool false), ("response", .str "boom")]
      (.bool false) rfl).1 rfl).1 (.str "boom") rfl,
   ((response_decoding
      [("success", .bool true), ("response", .str "ok")]
      (.bool true) rfl).2 rfl).2 (.str "ok") rfl⟩

/-! ## C4 — registry resolution -/

/-- C4: `Registry.resolve` returns the constructor bound to the first
candidate name present in the table; it fails with the no-mapping error
when no candidate is bound; and registering an already-bound name
replaces the binding, so subsequent resolutions return the newest
constructor. -/
theorem registry_resolution {K : Type} (m : List (String × K))
    (pre post : List String) (n : String) (k : K)
    (hpre : ∀ p ∈ pre, alGet m p = none) (hn : alGet m n = some k) :
    regResolve m (pre ++ n :: post) = .ok k ∧
    (∀ names, (∀ x ∈ names, alGet m x = none) →
      regResolve m names = .error .noMapping) ∧
    (∀ (clazz : K) (name : String),
      alGet (regRegister m clazz name) name = some clazz ∧
      ∀ rest, regResolve (regRegister m clazz name) (name :: rest) =
        .ok clazz) := by
  refine ⟨?_, ?_, ?_⟩
  · induction pre with
    | nil => simp [regResolve, hn]
    | cons p ps ih =>
      have hp : alGet m p = none := hpre p (by simp)
      have hps : ∀ x ∈ ps, alGet m x = none := fun x hx => hpre x (by simp [hx])
      simp only [List.cons_append, regResolve, hp]
      exact ih hps
  · intro names hnone
    induction names with
    | nil => rfl
    | cons x xs ih =>
      have hx : alGet m x = none := hnone x (by simp)
      have hxs : ∀ y ∈ xs, alGet m y = none := fun y hy => hnone y (by simp [hy])
      simp only [regResolve, hx]
      exact ih hxs
  · intro clazz name
    constructor
    · simp [regRegister, alSet, alGet]
    · intro rest
      simp [regResolve, regRegister, alSet, alGet]

/-- Witness for C4 at the spec's example: with `A ↦ 1`, `B ↦ 2` and the
root fallback `java.lang.Object ↦ 3` registered, resolving
`["C", "A", "java.lang.Object"]` returns `1`; with nothing registered,
resolving `["C", "D"]` raises the no-mapping error; re-registering `A`
to `9` makes resolution of `["A"]` return `9`. -/
theorem registry_resolution_witness :
    regResolve (regRegister (regRegister (regRegister [] 1 "A") 2 "B")
        3 "java.lang.Object") ["C", "A", "java.lang.Object"] = .ok 1 ∧
    regResolve (regRegister (regRegister (regRegister [] 1 "A") 2 "B")
        3 "java.lang.Object") ["C", "D"] = .error .noMapping ∧
    regResolve (regRegister (regRegister (regRegister (regRegister [] 1 "A")
        2 "B") 3 "java.lang.Object") 9 "A") ["A"] = .ok 9 := by
  have h := registry_resolution
    (regRegister (regRegister (regRegister [] 1 "A") 2 "B")
      3 "java.lang.Object")
    ["C"] ["java.lang.Object"] "A" 1 (by decide) (by decide)
  exact ⟨h.1, h.2.1 ["C", "D"] (by decide), (h.2.2 9 "A").2 []⟩

/-! ## C5 — virtual versus concrete dispatch -/

/-- C5: the dispatch condition of `Method.__call__` is
`type(self._method is str)` — the `bool` class object, which is truthy —
so the call site does *not* branch on the string-versus-integer tag: it
invokes `self._service.virtual` (the by-name remote call) for every
stored method, integer indices included.  In particular a `Method` whose
`_method` is the integer index 3 is dispatched by name. -/
theorem method_dispatch_always_virtual (entryPoint : Int) (path : List Nat)
    (method : PyVal) (args : List (Option Int)) :
    callBranch method = true ∧
    methodInvoke entryPoint path method args =
      .virtualCall entryPoint path method args ∧
    methodInvoke 0 [] (.int 3) [] = .virtualCall 0 [] (.int 3) [] := by
  have h : callBranch method = true := by cases method <;> rfl
  exact ⟨h, by simp [methodInvoke, h], rfl⟩

/-! ## C6 — null-argument marshalling -/

/-- Counterexample for C6 as stated: a null argument is marshalled as
Python `None` (a JSON `null` in the sent argument list), not as the
reserved EntryPoint `-1`. -/
theorem null_argument_counterexample :
    marshalArgs (fun e : Int => e) [none] = [none] ∧
    marshalArgs (fun e : Int => e) [none] ≠ [some (-1)] := by
  exact ⟨rfl, by decide⟩

/-- C6 (amended): each null/absent argument is forwarded in its argument
position as the null marker (Python `None`), never dropped — the argument
list keeps its length and positions — while every other argument is
forwarded as the entry point obtained from `_getentrypoint`; the marker
used for null is `None`, not the reserved EntryPoint `-1`. -/
theorem argument_marshalling {α : Type} (getEp : α → Int)
    (objects : List (Option α)) :
    (marshalArgs getEp objects).length = objects.length ∧
    (∀ i : Nat, (marshalArgs getEp objects)[i]? =
      (objects[i]?).map fun o => o.map getEp) := by
  constructor
  · simp [marshalArgs]
  · intro i
    simp only [marshalArgs, List.getElem?_map]
    rcases objects[i]? with _ | o
    · rfl
    · rcases o with _ | a <;> rfl

/-! ## C9 — sentinel entry point and the `Null` proxy -/

/-- Counterexample for C9 as stated: `get_field(-1)` returns Python
`None` — not a `Null` proxy instance — and the `Null` proxy's
`_getfields` / `_getmethods` return Python `None`, not empty listings. -/
theorem sentinel_counterexample :
    (serviceGetField sampleRemote (-1) []).1 = none ∧
    nullGetfields ≠ some [] ∧ nullGetmethods ≠ some [] :=
  ⟨rfl, by decide, by decide⟩

/-- C9 (amended): `get_field` called with a negative entry point (the
reserved sentinel `-1` included) returns no object at all — Python
`None`, not a `Null` proxy — without issuing any remote call; and the
`Null` proxy's field and method listings are Python `None` rather than
empty dictionaries. -/
theorem sentinel_get_field (r : Remote) (entryPoint : Int)
    (path : List Nat) (h : entryPoint < 0) :
    serviceGetField r entryPoint path = (none, []) ∧
    nullGetfields = none ∧ nullGetmethods = none := by
  refine ⟨?_, rfl, rfl⟩
  simp [serviceGetField, h]

/-- Witness for C9 at the sentinel `-1`. -/
theorem sentinel_get_field_witness :
    serviceGetField sampleRemote (-1) [] = (none, []) ∧
    nullGetfields = none ∧ nullGetmethods = none :=
  sentinel_get_field sampleRemote (-1) [] (by decide)

/-! ## C10 — exact-type promotion in `Service.to_object` -/

/-- C10: a host value whose exact type is not `str`, `int` or `bool`
(a float, a list, a host-side `None`, ...) makes `Service.to_object`
return no proxy at all and issue no remote call; a `str`, `int` or
`bool` is promoted by pushing it remotely (the corresponding push call
leads its call log). -/
theorem to_object_exact_types (r : Remote) (v : HostVal) :
    (isPromotable v = false → toObject r v = (none, [])) ∧
    (∀ s, (toObject r (.str s)).2 =
      .pushStringCall s :: (serviceGetField r (r.pushString s) []).2) ∧
    (∀ n, (toObject r (.int n)).2 =
      .pushIntCall n :: (serviceGetField r (r.pushInt n) []).2) ∧
    (∀ b, (toObject r (.bool b)).2 =
      .pushBoolCall b :: (serviceGetField r (r.pushBool b) []).2) := by
  refine ⟨?_, fun s => rfl, fun n => rfl, fun b => rfl⟩
  intro h
  cases v with
  | str s => simp [isPromotable] at h
  | int n => simp [isPromotable] at h
  | bool b => simp [isPromotable] at h
  | floatV => rfl
  | listV => rfl
  | noneV => rfl

/-- Witness for C10: a float produces no proxy and no remote call; the
string `"x"` is pushed and then wrapped (one push, one `getTypes`). -/
theorem to_object_exact_types_witness :
    toObject sampleRemote .floatV = (none, []) ∧
    (toObject sampleRemote (.str "x")).2 =
      [.pushStringCall "x", .getTypesCall 5 []] :=
  ⟨(to_object_exact_types sampleRemote .floatV).1 rfl,
   by rw [(to_object_exact_types sampleRemote (.str "x")).2.1 "x"]; decide⟩

/-! ## Dictionary population lemmas -/

theorem alGet_alSet {K : Type} (d : List (String × K)) (k name : String)
    (v : K) :
    alGet (alSet d k v) name = if k = name then some v else alGet d name :=
  rfl

/-- A key absent from the inserted entries is looked up in the initial
dictionary. -/
theorem alGet_fold_not_mem {β γ : Type} (key : γ → String)
    (f : List (String × β) → γ → β) (l : List γ)
    (d : List (String × β)) (name : String) (h : name ∉ l.map key) :
    alGet (l.foldl (fun d e => alSet d (key e) (f d e)) d) name =
      alGet d name := by
  induction l generalizing d with
  | nil => rfl
  | cons e es ih =>
    simp only [List.map_cons, List.mem_cons, not_or] at h
    simp only [List.foldl_cons]
    rw [ih _ h.2, alGet_alSet, if_neg (Ne.symm h.1)]

/-- A key among the inserted entries is bound, to a value the insertion
function produced. -/
theorem alGet_fold_mem {β γ : Type} (key : γ → String)
    (f : List (String × β) → γ → β) (P : β → Prop)
    (hP : ∀ d e, P (f d e)) (l : List γ) (d : List (String × β))
    (name : String) (h : name ∈ l.map key) :
    ∃ v, alGet (l.foldl (fun d e => alSet d (key e) (f d e)) d) name =
      some v ∧ P v := by
  induction l generalizing d with
  | nil => cases h
  | cons e es ih =>
    simp only [List.foldl_cons]
    by_cases hmem : name ∈ es.map key
    · exact ih _ hmem
    · have heq : name = key e := by
        simp only [List.map_cons, List.mem_cons] at h
        tauto
      rw [alGet_fold_not_mem key f es _ name hmem, alGet_alSet,
        if_pos heq.symm]
      exact ⟨f d e, rfl, hP d e⟩

theorem enum_keys {β : Type} (l : List (String × β)) :
    (List.enum l).map (fun e => e.2.1) = l.map (fun p => p.1) := by
  rw [show (fun e : Nat × String × β => e.2.1) =
      (fun p : String × β => p.1) ∘ Prod.snd from rfl]
  rw [← List.map_map, List.enum_map_snd]

/-- A name among the remote field entries is bound in the populated field
dictionary — to an unmaterialized integer index. -/
theorem serviceGetFields_key_some (r : Remote) (ep : Int) (path : List Nat)
    (name : String)
    (h : name ∈ (r.fieldsOf ep path).map (fun p => p.1)) :
    ∃ m t i, alGet (serviceGetFields r ep path) name =
      some (m, t, FieldVal.index i) := by
  have hmem : name ∈ (List.enum (r.fieldsOf ep path)).map (fun e => e.2.1) := by
    rw [enum_keys]; exact h
  obtain ⟨v, hv, hP⟩ := alGet_fold_mem (fun e => e.2.1)
    (fun _ e => (e.2.2.1, e.2.2.2, FieldVal.index e.1))
    (fun v => ∃ m t i, v = (m, t, FieldVal.index i))
    (fun d e => ⟨e.2.2.1, e.2.2.2, e.1, rfl⟩)
    (List.enum (r.fieldsOf ep path)) [] name hmem
  obtain ⟨m, t, i, rfl⟩ := hP
  exact ⟨m, t, i, hv⟩

/-- A name not among the remote field entries is unbound in the populated
field dictionary. -/
theorem serviceGetFields_key_none (r : Remote) (ep : Int) (path : List Nat)
    (name : String)
    (h : name ∉ (r.fieldsOf ep path).map (fun p => p.1)) :
    alGet (serviceGetFields r ep path) name = none := by
  have hmem : name ∉ (List.enum (r.fieldsOf ep path)).map (fun e => e.2.1) := by
    rw [enum_keys]; exact h
  exact alGet_fold_not_mem (fun e => e.2.1)
    (fun _ e => (e.2.2.1, e.2.2.2, FieldVal.index e.1))
    (List.enum (r.fieldsOf ep path)) [] name hmem

/-- A name among the remote method entries is bound in the populated
method dictionary. -/
theorem serviceGetMethods_key_some (r : Remote) (ep : Int) (path : List Nat)
    (name : String)
    (h : name ∈ (r.methodsOf ep path).map (fun p => p.1)) :
    ∃ v, alGet (serviceGetMethods r ep path) name = some v := by
  have hmem : name ∈ (List.enum (r.methodsOf ep path)).map (fun e => e.2.1) := by
    rw [enum_keys]; exact h
  obtain ⟨v, hv, _⟩ := alGet_fold_mem (fun e => e.2.1)
    (fun d e => ((alGet d e.2.1).getD []) ++ [(e.2.2.1, e.2.2.2, e.1)])
    (fun _ => True) (fun _ _ => trivial)
    (List.enum (r.methodsOf ep path)) [] name hmem
  exact ⟨v, hv⟩

/-- A name not among the remote method entries is unbound in the
populated method dictionary. -/
theorem serviceGetMethods_key_none (r : Remote) (ep : Int) (path : List Nat)
    (name : String)
    (h : name ∉ (r.methodsOf ep path).map (fun p => p.1)) :
    alGet (serviceGetMethods r ep path) name = none := by
  have hmem : name ∉ (List.enum (r.methodsOf ep path)).map (fun e => e.2.1) := by
    rw [enum_keys]; exact h
  exact alGet_fold_not_mem (fun e => e.2.1)
    (fun d e => ((alGet d e.2.1).getD []) ++ [(e.2.2.1, e.2.2.2, e.1)])
    (List.enum (r.methodsOf ep path)) [] name hmem

/-! ## Cache state lemmas -/

theorem objGetfields_cache (r : Remote) (s : ObjState) :
    (objGetfields r s).2.1.fieldCache = some (objGetfields r s).1 := by
  cases h : s.fieldCache <;> simp [objGetfields, h]

theorem objGetfields_entryPoint (r : Remote) (s : ObjState) :
    (objGetfields r s).2.1.entryPoint = s.entryPoint := by
  cases h : s.fieldCache <;> simp [objGetfields, h]

theorem objGetfields_path (r : Remote) (s : ObjState) :
    (objGetfields r s).2.1.path = s.path := by
  cases h : s.fieldCache <;> simp [objGetfields, h]

theorem objGetfields_methodCache (r : Remote) (s : ObjState) :
    (objGetfields r s).2.1.methodCache = s.methodCache := by
  cases h : s.fieldCache <;> simp [objGetfields, h]

theorem objGetfields_of_some (r : Remote) (s : ObjState)
    (d : List (String × FieldEntry)) (h : s.fieldCache = some d) :
    objGetfields r s = (d, s, []) := by
  simp [objGetfields, h]

theorem objGetfields_of_none (r : Remote) (s : ObjState)
    (h : s.fieldCache = none) :
    objGetfields r s = (serviceGetFields r s.entryPoint s.path,
      { s with fieldCache := some (serviceGetFields r s.entryPoint s.path) },
      [.getFieldsCall s.entryPoint s.path]) := by
  simp [objGetfields, h]

/-- Case equation for `_getfield`: the name is not a field. -/
theorem objGetfield_none_eq (r : Remote) (s : ObjState) (name : String)
    (h : alGet (objGetfields r s).1 name = none) :
    objGetfield r s name =
      (.ok none, (objGetfields r s).2.1, (objGetfields r s).2.2) := by
  simp only [objGetfield]
  rw [h]

/-- Case equation for `_getfield`: the cache holds an unmaterialized
index, so the field object is built and the cache entry overwritten. -/
theorem objGetfield_index_eq (r : Remote) (s : ObjState) (name : String)
    (m : List String) (t : String) (i : Nat)
    (h : alGet (objGetfields r s).1 name = some (m, t, FieldVal.index i)) :
    objGetfield r s name =
      (match (serviceGetField r (objGetfields r s).2.1.entryPoint
          ((objGetfields r s).2.1.path ++ [i])).1 with
       | some o =>
         (GetfieldResult.ok (some o),
          { (objGetfields r s).2.1 with
              fieldCache := some (alSet (objGetfields r s).1 name
                (m, t, FieldVal.materialized (serviceGetField r
                  (objGetfields r s).2.1.entryPoint
                  ((objGetfields r s).2.1.path ++ [i])).1)) },
          (objGetfields r s).2.2 ++ (serviceGetField r
            (objGetfields r s).2.1.entryPoint
            ((objGetfields r s).2.1.path ++ [i])).2)
       | none =>
         (GetfieldResult.crash,
          { (objGetfields r s).2.1 with
              fieldCache := some (alSet (objGetfields r s).1 name
                (m, t, FieldVal.materialized (serviceGetField r
                  (objGetfields r s).2.1.entryPoint
                  ((objGetfields r s).2.1.path ++ [i])).1)) },
          (objGetfields r s).2.2 ++ (serviceGetField r
            (objGetfields r s).2.1.entryPoint
            ((objGetfields r s).2.1.path ++ [i])).2)) := by
  simp only [objGetfield]
  rw [h]

/-- Case equation for `_getfield`: the cache entry is already
materialized, so the call mutates nothing. -/
theorem objGetfield_mat_eq (r : Remote) (s : ObjState) (name : String)
    (m : List String) (t : String) (o : Option RObj)
    (h : alGet (objGetfields r s).1 name =
      some (m, t, FieldVal.materialized o)) :
    objGetfield r s name =
      (readback o, (objGetfields r s).2.1, (objGetfields r s).2.2) := by
  rcases o with _ | x <;>
  · simp only [objGetfield]
    rw [h]
    rfl

/-- After `_getfield`, the field cache is populated and its entry for the
accessed name is settled: either absent, or materialized — and the
returned value is exactly the readback of that entry. -/
theorem objGetfield_after (r : Remote) (s : ObjState) (name : String) :
    ∃ d, (objGetfield r s name).2.1.fieldCache = some d ∧
      ((alGet d name = none ∧ (objGetfield r s name).1 = .ok none) ∨
       (∃ m t o, alGet d name = some (m, t, FieldVal.materialized o) ∧
         (objGetfield r s name).1 = readback o)) := by
  rcases h1 : alGet (objGetfields r s).1 name with _ | ⟨m, t, fv⟩
  · rw [objGetfield_none_eq r s name h1]
    exact ⟨(objGetfields r s).1, objGetfields_cache r s, Or.inl ⟨h1, rfl⟩⟩
  · rcases fv with i | o
    · rw [objGetfield_index_eq r s name m t i h1]
      rcases hg : (serviceGetField r (objGetfields r s).2.1.entryPoint
        ((objGetfields r s).2.1.path ++ [i])).1 with _ | x
      · exact ⟨alSet (objGetfields r s).1 name
          (m, t, FieldVal.materialized none), rfl,
          Or.inr ⟨m, t, none, by rw [alGet_alSet, if_pos rfl], rfl⟩⟩
      · exact ⟨alSet (objGetfields r s).1 name
          (m, t, FieldVal.materialized (some x)), rfl,
          Or.inr ⟨m, t, some x, by rw [alGet_alSet, if_pos rfl], rfl⟩⟩
    · rw [objGetfield_mat_eq r s name m t o h1]
      refine ⟨(objGetfields r s).1, objGetfields_cache r s,
        Or.inr ⟨m, t, o, h1, rfl⟩⟩

/-- On a state whose cache entry for the name is settled, `_getfield`
reads the cache back, mutates nothing and issues no remote call. -/
theorem objGetfield_settled (r : Remote) (s : ObjState) (name : String)
    (d : List (String × FieldEntry)) (h : s.fieldCache = some d)
    (hset : alGet d name = none ∨
      ∃ m t o, alGet d name = some (m, t, FieldVal.materialized o)) :
    objGetfield r s name = (readbackEntry (alGet d name), s, []) := by
  have hgf := objGetfields_of_some r s d h
  rcases hset with hn | ⟨m, t, o, hm⟩
  · rw [objGetfield_none_eq r s name (by rw [hgf]; exact hn)]
    rw [hgf, hn]
    rfl
  · rw [objGetfield_mat_eq r s name m t o (by rw [hgf]; exact hm)]
    rw [hgf, hm]
    rfl

/-- C8's core: repeating `_getfield` for the same name returns the same
result, leaves the object state untouched and performs no remote call. -/
theorem objGetfield_idem (r : Remote) (s : ObjState) (name : String) :
    objGetfield r (objGetfield r s name).2.1 name =
      ((objGetfield r s name).1, (objGetfield r s name).2.1, []) := by
  obtain ⟨d, hd, hcase⟩ := objGetfield_after r s name
  rcases hcase with ⟨hn, hres⟩ | ⟨m, t, o, hm, hres⟩
  · rw [objGetfield_settled r _ name d hd (Or.inl hn), hn, hres]
    rfl
  · rw [objGetfield_settled r _ name d hd (Or.inr ⟨m, t, o, hm⟩), hm, hres]
    rfl

/-- `_getfield` changes neither the address nor the method cache. -/
theorem objGetfield_preserves (r : Remote) (s : ObjState) (name : String) :
    (objGetfield r s name).2.1.entryPoint = s.entryPoint ∧
    (objGetfield r s name).2.1.path = s.path ∧
    (objGetfield r s name).2.1.methodCache = s.methodCache := by
  rcases h1 : alGet (objGetfields r s).1 name with _ | ⟨m, t, fv⟩
  · rw [objGetfield_none_eq r s name h1]
    exact ⟨objGetfields_entryPoint r s, objGetfields_path r s,
      objGetfields_methodCache r s⟩
  · rcases fv with i | o
    · rw [objGetfield_index_eq r s name m t i h1]
      rcases hg : (serviceGetField r (objGetfields r s).2.1.entryPoint
        ((objGetfields r s).2.1.path ++ [i])).1 with _ | x <;>
        exact ⟨objGetfields_entryPoint r s, objGetfields_path r s,
          objGetfields_methodCache r s⟩
    · rw [objGetfield_mat_eq r s name m t o h1]
      exact ⟨objGetfields_entryPoint r s, objGetfields_path r s,
        objGetfields_methodCache r s⟩

theorem serviceGetField_no_fetch (r : Remote) (ep : Int) (path : List Nat) :
    List.countP isFetch (serviceGetField r ep path).2 = 0 := by
  by_cases h : ep < 0
  · simp [serviceGetField, h]
  · by_cases ht : r.typesOf ep path = [] <;>
      simp [serviceGetField, h, ht, isFetch]

/-- Whatever `_getfield` does, the field-list fetches it performs are
exactly those of its `_getfields` step. -/
theorem objGetfield_fetch (r : Remote) (s : ObjState) (name : String) :
    List.countP isFetch (objGetfield r s name).2.2 =
      List.countP isFetch (objGetfields r s).2.2 := by
  rcases h1 : alGet (objGetfields r s).1 name with _ | ⟨m, t, fv⟩
  · rw [objGetfield_none_eq r s name h1]
  · rcases fv with i | o
    · rw [objGetfield_index_eq r s name m t i h1]
      rcases hg : (serviceGetField r (objGetfields r s).2.1.entryPoint
        ((objGetfields r s).2.1.path ++ [i])).1 with _ | x <;>
      · show List.countP isFetch ((objGetfields r s).2.2 ++ _) = _
        rw [List.countP_append, serviceGetField_no_fetch]
        omega
    · rw [objGetfield_mat_eq r s name m t o h1]

/-- A `_getfields` on an unfetched cache performs exactly one fetch; on a
fetched cache, none. -/
theorem objGetfields_fetch_count (r : Remote) (s : ObjState) :
    List.countP isFetch (objGetfields r s).2.2 =
      (match s.fieldCache with | none => 1 | some _ => 0) := by
  cases h : s.fieldCache <;> simp [objGetfields, h, List.countP_cons, isFetch]

/-- `_getfield` on a fresh object, name not a field: Python `None`. -/
theorem objGetfield_fresh_notfound (r : Remote) (ep : Int) (path : List Nat)
    (name : String)
    (h : alGet (serviceGetFields r ep path) name = none) :
    (objGetfield r (freshObj ep path) name).1 = .ok none := by
  rw [objGetfield_none_eq r _ name
    (by rw [objGetfields_of_none r _ rfl]; exact h)]

/-- `_getfield` on a fresh object, name bound to an index, live remote:
the materialized proxy at `path ++ [i]`. -/
theorem objGetfield_fresh_found (r : Remote) (ep : Int) (path : List Nat)
    (name : String) (m : List String) (t : String) (i : Nat)
    (hidx : alGet (serviceGetFields r ep path) name =
      some (m, t, FieldVal.index i))
    (hep : ¬ ep < 0) (ht : r.typesOf ep (path ++ [i]) ≠ []) :
    (objGetfield r (freshObj ep path) name).1 =
      .ok (some ⟨r.typesOf ep (path ++ [i]), ep, path ++ [i]⟩) := by
  have hidx2 : alGet (objGetfields r (freshObj ep path)).1 name =
      some (m, t, FieldVal.index i) := by
    rw [objGetfields_of_none r _ rfl]
    exact hidx
  rw [objGetfield_index_eq r (freshObj ep path) name m t i hidx2]
  have hsf : serviceGetField r
      (objGetfields r (freshObj ep path)).2.1.entryPoint
      ((objGetfields r (freshObj ep path)).2.1.path ++ [i]) =
      (some ⟨r.typesOf ep (path ++ [i]), ep, path ++ [i]⟩,
       [.getTypesCall ep (path ++ [i])]) := by
    rw [objGetfields_entryPoint, objGetfields_path]
    show serviceGetField r ep (path ++ [i]) = _
    simp [serviceGetField, hep, ht]
  rw [hsf]

theorem objGetmethods_entryPoint (r : Remote) (s : ObjState) :
    (objGetmethods r s).2.1.entryPoint = s.entryPoint := by
  cases h : s.methodCache <;> simp [objGetmethods, h]

theorem objGetmethods_path (r : Remote) (s : ObjState) :
    (objGetmethods r s).2.1.path = s.path := by
  cases h : s.methodCache <;> simp [objGetmethods, h]

/-- `_getmethod` when the (fetched-on-demand) method dictionary binds the
name: a virtual `Method` carrying the name string and the receiver's
address. -/
theorem objGetmethod_found (r : Remote) (s : ObjState) (name : String)
    (hmc : s.methodCache = none)
    (h : ∃ v, alGet (serviceGetMethods r s.entryPoint s.path) name = some v) :
    (objGetmethod r s name).1 = some ⟨s.entryPoint, s.path, .str name⟩ := by
  obtain ⟨v, hv⟩ := h
  have hgm : objGetmethods r s = (serviceGetMethods r s.entryPoint s.path,
      { s with methodCache := some (serviceGetMethods r s.entryPoint s.path) },
      [.getMethodsCall s.entryPoint s.path]) := by
    simp [objGetmethods, hmc]
  simp only [objGetmethod, hgm]
  rw [hv]

/-- `_getmethod` when the method dictionary does not bind the name:
Python `None`. -/
theorem objGetmethod_notfound (r : Remote) (s : ObjState) (name : String)
    (hmc : s.methodCache = none)
    (h : alGet (serviceGetMethods r s.entryPoint s.path) name = none) :
    (objGetmethod r s name).1 = none := by
  have hgm : objGetmethods r s = (serviceGetMethods r s.entryPoint s.path,
      { s with methodCache := some (serviceGetMethods r s.entryPoint s.path) },
      [.getMethodsCall s.entryPoint s.path]) := by
    simp [objGetmethods, hmc]
  simp only [objGetmethod, hgm]
  rw [h]

/-! ## C7 — attribute resolution order -/

/-- C7: name lookup on a (fresh, live) remote object resolves fields
first — whatever the modifiers are, and even when a method shares the
name — then methods, again regardless of modifiers; a name matching
neither fails with the unknown-attribute error. -/
theorem attribute_resolution_order (r : Remote) (entryPoint : Int)
    (path : List Nat) (name : String) (hep : 0 ≤ entryPoint)
    (htypes : ∀ i, r.typesOf entryPoint (path ++ [i]) ≠ []) :
    (name ∈ (r.fieldsOf entryPoint path).map (fun p => p.1) →
      ∃ o, (objGetattr r (freshObj entryPoint path) name).1 =
        .fieldAttr o) ∧
    (name ∉ (r.fieldsOf entryPoint path).map (fun p => p.1) →
      name ∈ (r.methodsOf entryPoint path).map (fun p => p.1) →
      (objGetattr r (freshObj entryPoint path) name).1 =
        .methodAttr ⟨entryPoint, path, .str name⟩) ∧
    (name ∉ (r.fieldsOf entryPoint path).map (fun p => p.1) →
      name ∉ (r.methodsOf entryPoint path).map (fun p => p.1) →
      (objGetattr r (freshObj entryPoint path) name).1 =
        .attributeError name) := by
  have hep2 : ¬ entryPoint < 0 := by omega
  have hpres := objGetfield_preserves r (freshObj entryPoint path) name
  refine ⟨?_, ?_, ?_⟩
  · intro hf
    obtain ⟨m, t, i, hidx⟩ := serviceGetFields_key_some r entryPoint path
      name hf
    have hres := objGetfield_fresh_found r entryPoint path name m t i hidx
      hep2 (htypes i)
    refine ⟨⟨r.typesOf entryPoint (path ++ [i]), entryPoint, path ++ [i]⟩,
      ?_⟩
    simp only [objGetattr]
    rw [hres]
  · intro hfn hm
    have hres := objGetfield_fresh_notfound r entryPoint path name
      (serviceGetFields_key_none r entryPoint path name hfn)
    obtain ⟨v, hv⟩ := serviceGetMethods_key_some r entryPoint path name hm
    have hmeth := objGetmethod_found r
      ((objGetfield r (freshObj entryPoint path) name).2.1) name
      (by rw [hpres.2.2]; rfl)
      (by rw [hpres.1, hpres.2.1]; exact ⟨v, hv⟩)
    simp only [objGetattr]
    rw [hres, hmeth, hpres.1, hpres.2.1]
    rfl
  · intro hfn hmn
    have hres := objGetfield_fresh_notfound r entryPoint path name
      (serviceGetFields_key_none r entryPoint path name hfn)
    have hmeth := objGetmethod_notfound r
      ((objGetfield r (freshObj entryPoint path) name).2.1) name
      (by rw [hpres.2.2]; rfl)
      (by rw [hpres.1, hpres.2.1]
          exact serviceGetMethods_key_none r entryPoint path name hmn)
    simp only [objGetattr]
    rw [hres, hmeth]

/-- Witness for C7 against the sample remote, whose object exposes both a
field and a method named `x`: the lookup of `x` yields the field, the
lookup of `m` (method only) yields the virtual method, and an unknown
name is an attribute error. -/
theorem attribute_resolution_order_witness :
    (∃ o, (objGetattr sampleRemote (freshObj 0 []) "x").1 =
      .fieldAttr o) ∧
    (objGetattr sampleRemote (freshObj 0 []) "m").1 =
      .methodAttr ⟨0, [], .str "m"⟩ ∧
    (objGetattr sampleRemote (freshObj 0 []) "zz").1 =
      .attributeError "zz" := by
  have h := attribute_resolution_order sampleRemote 0 [] "x" (by decide)
    (fun i => by simp [sampleRemote])
  have h2 := attribute_resolution_order sampleRemote 0 [] "m" (by decide)
    (fun i => by simp [sampleRemote])
  have h3 := attribute_resolution_order sampleRemote 0 [] "zz" (by decide)
    (fun i => by simp [sampleRemote])
  exact ⟨h.1 (by decide), h2.2.1 (by decide) (by decide),
    h3.2.2 (by decide) (by decide)⟩

/-! ## C8 — cache population and materialization idempotence -/

/-- C8: starting from a fresh remote object, accessing two field names
(equal or different) triggers exactly one field-list fetch; and a repeated
access of the same name returns the first access's result with the object
state untouched and no remote call at all — in particular the cached
entry, already materialized by the first access, is not materialized
again. -/
theorem cache_idempotence (r : Remote) (entryPoint : Int)
    (path : List Nat) (n1 n2 : String) :
    List.countP isFetch
      ((objGetfield r (freshObj entryPoint path) n1).2.2 ++
       (objGetfield r
         (objGetfield r (freshObj entryPoint path) n1).2.1 n2).2.2) = 1 ∧
    objGetfield r (objGetfield r (freshObj entryPoint path) n1).2.1 n1 =
      ((objGetfield r (freshObj entryPoint path) n1).1,
       (objGetfield r (freshObj entryPoint path) n1).2.1, []) := by
  constructor
  · rw [List.countP_append, objGetfield_fetch, objGetfield_fetch,
      objGetfields_fetch_count, objGetfields_fetch_count]
    obtain ⟨d, hd, _⟩ := objGetfield_after r (freshObj entryPoint path) n1
    rw [hd]
    rfl
  · exact objGetfield_idem r (freshObj entryPoint path) n1

end Gadget
